import Mathlib

/-!
Verification development for the NeutralinoTypings repository
(`neutralino.d.ts`, an ambient TypeScript declaration file for the
Neutralinojs client library).

The repository itself contains only declarations.  Definitions below are of
two kinds:

* transcriptions of the declared surface (literal union types, documented
  error codes, the list of declared methods and their return annotations),
  taken directly from `src/neutralino.d.ts`; and
* models of the client behaviour that the declarations describe but do not
  implement (request correlation, event routing, connection management),
  each marked `Modelled from the spec:` and built from the design
  specification's words.
-/

namespace NeutralinoSpec

/-- Modelled from the spec: the outcome carried by a Response message —
either a success payload or a failure with a server-supplied error code
(an opaque string token) and a human-readable message. -/
inductive RpcResult where
  | success : String → RpcResult
  | failure : (code : String) → (message : String) → RpcResult
deriving DecidableEq, Repr

/-- Modelled from the spec: an Outgoing Message
`{identifier, namespace, method, arguments}`, immutable once sent. -/
structure OutgoingMessage where
  identifier : Nat
  ns : String
  method : String
  args : List String
deriving DecidableEq, Repr

/-- Modelled from the spec: Connection State enum
`{Connecting, Open, Offline}` (`Open` is rendered `opened`). -/
inductive ConnState where
  | connecting
  | opened
  | offline
deriving DecidableEq, Repr

/-- Modelled from the spec: the observable state of the client facade —
connection state, the monotonic identifier source, the Pending Call table
(identifiers of in-flight calls), the log of resolutions
`(identifier, result)` in resolution order, and the log of messages
handed to the Transport Connector. -/
structure ClientState where
  conn : ConnState
  nextId : Nat
  pending : List Nat
  resolved : List (Nat × RpcResult)
  sentLog : List OutgoingMessage
deriving DecidableEq, Repr

/-- Modelled from the spec: the transport-failure error with which every
Pending Call is rejected when the connection is lost. -/
def transportFailure : RpcResult :=
  RpcResult.failure "NE_CL_TRANSPT" "transport connection lost"

/-- Modelled from the spec: the Request Correlator issues a call — it
generates a fresh unique identifier (monotonic counter scoped to process
lifetime), stores a Pending Call keyed by it, and hands an Outgoing
Message to the Transport Connector. -/
def issueCall (s : ClientState) (ns method : String) (args : List String) :
    ClientState :=
  { s with
    nextId := s.nextId + 1
    pending := s.nextId :: s.pending
    sentLog := s.sentLog ++ [⟨s.nextId, ns, method, args⟩] }

/-- Modelled from the spec: on an Incoming Message tagged Response whose
identifier matches a Pending Call, the Correlator removes that entry and
fulfills it with the carried result; a Response without a matching
Pending Call is dropped. -/
def deliverResponse (s : ClientState) (id : Nat) (r : RpcResult) :
    ClientState :=
  if id ∈ s.pending then
    { s with
      pending := s.pending.erase id
      resolved := s.resolved ++ [(id, r)] }
  else s

/-- Modelled from the spec: on transport loss the connection state becomes
Offline and every Pending Call is rejected with a transport-failure
error (fail-fast; no silent hang). -/
def transportLoss (s : ClientState) : ClientState :=
  { s with
    conn := ConnState.offline
    pending := []
    resolved := s.resolved ++ s.pending.map (fun i => (i, transportFailure)) }

/-- Modelled from the spec: the connection-state effect of `connect()` —
a no-op if already Open or Connecting; from Offline a caller-initiated
reconnection enters Connecting. -/
def connectConn : ConnState → ConnState
  | ConnState.offline => ConnState.connecting
  | c => c

/-- Modelled from the spec: the initialization entry point
(`Neutralino.init` / the Transport Connector's `connect()`): idempotent,
touching only the connection state and no other observable state. -/
def connectOp (s : ClientState) : ClientState :=
  { s with conn := connectConn s.conn }

/-- Modelled from the spec: handshake success moves Connecting to Open. -/
def handshake (s : ClientState) : ClientState :=
  { s with
    conn :=
      if s.conn = ConnState.connecting then ConnState.opened else s.conn }

/-- Modelled from the spec: the initial state — `init` has been invoked,
the WebSocket connection is being established asynchronously and no call
has been issued yet. -/
def initialState : ClientState := ⟨ConnState.connecting, 0, [], [], []⟩

/-- Modelled from the spec: one step of the client facade.  Calls are
issued only while Open; responses arrive in any order; transport loss,
caller-initiated reconnection and handshake completion may occur at any
time. -/
inductive Step : ClientState → ClientState → Prop where
  | issue (s : ClientState) (ns method : String) (args : List String) :
      s.conn = ConnState.opened → Step s (issueCall s ns method args)
  | respond (s : ClientState) (id : Nat) (r : RpcResult) :
      Step s (deliverResponse s id r)
  | loss (s : ClientState) : Step s (transportLoss s)
  | reconnect (s : ClientState) : Step s (connectOp s)
  | handshakeOk (s : ClientState) : Step s (handshake s)

/-- Modelled from the spec: the states reachable from the initial state. -/
inductive Reachable : ClientState → Prop where
  | base : Reachable initialState
  | step {s t : ClientState} : Reachable s → Step s t → Reachable t

/-- Modelled from the spec: the states reachable from a given state. -/
inductive ReachableFrom : ClientState → ClientState → Prop where
  | refl (s : ClientState) : ReachableFrom s s
  | step {s t u : ClientState} :
      ReachableFrom s t → Step t u → ReachableFrom s u

/-- Identifiers already consumed as resolutions. -/
def resolvedIds (s : ClientState) : List Nat := s.resolved.map Prod.fst

/-- The result with which the call bearing `id` was resolved, if any. -/
def resultOf (s : ClientState) (id : Nat) : Option RpcResult :=
  (s.resolved.find? (fun p => p.fst = id)).map Prod.snd

/-- Correlator state invariant: the Pending Call table holds distinct
identifiers, every identifier ever used is below the fresh counter, and
no identifier is simultaneously pending and resolved. -/
def GoodState (s : ClientState) : Prop :=
  s.pending.Nodup ∧
  (∀ i ∈ s.pending, i < s.nextId) ∧
  (resolvedIds s).Nodup ∧
  (∀ i ∈ resolvedIds s, i < s.nextId) ∧
  (∀ i ∈ s.pending, i ∉ resolvedIds s)

/-- Lifecycle of one call: either it is still outstanding and unresolved,
or it has been resolved exactly once. -/
def TracksCall (id : Nat) (s : ClientState) : Prop :=
  (id ∈ s.pending ∧ id ∉ resolvedIds s) ∨ (resolvedIds s).count id = 1

/-- Modelled from the spec: a handler reference (handlers are compared by
exact reference match, so an opaque token suffices). -/
abbrev Handler := Nat

/-- Modelled from the spec: a registry mutation a handler may perform while
a dispatch pass is in flight — registering or unregistering a handler. -/
inductive RouterCmd where
  | register : Handler → RouterCmd
  | unregister : Handler → RouterCmd
deriving DecidableEq, Repr

/-- Modelled from the spec: applying one registry mutation — registration
appends (insertion order = invocation order); unregistering removes by
exact handler-reference match, a no-op if not found. -/
def applyCmd (reg : List Handler) : RouterCmd → List Handler
  | RouterCmd.register h => reg ++ [h]
  | RouterCmd.unregister h => reg.erase h

/-- Applies a sequence of registry mutations in order. -/
def applyCmds (reg : List Handler) (cs : List RouterCmd) : List Handler :=
  cs.foldl applyCmd reg

/-- Modelled from the spec: one dispatch pass of the Event Router over a
snapshot of the registry.  Each snapshotted handler is invoked once, in
order; a handler's invocation may mutate the live registry (`effects`
gives the mutations it performs), but the pass keeps following the
snapshot.  Returns the invocation log and the final registry. -/
def runPass (snapshot : List Handler) (reg : List Handler)
    (effects : Handler → List RouterCmd) : List Handler × List Handler :=
  match snapshot with
  | [] => ([], reg)
  | h :: rest =>
    let next := runPass rest (applyCmds reg (effects h)) effects
    (h :: next.fst, next.snd)

/-- Modelled from the spec: `dispatch(eventName, data)` snapshots the
handlers currently registered for the event and runs one pass over the
snapshot. -/
def dispatchEvent (reg : List Handler)
    (effects : Handler → List RouterCmd) : List Handler × List Handler :=
  runPass reg reg effects

/-- Accepted folder names of `os.getPath`, transcribed from the literal
union type of its `name` parameter (src/neutralino.d.ts lines 885-897). -/
def knownFolderNames : List String :=
  ["config", "data", "cache", "documents", "pictures", "music", "video",
   "downloads", "savedGames1", "savedGames2"]

/-- Modelled from the spec: the client-side guard of the `os.getPath`
facade — a folder-name enum argument must be one of the fixed closed set,
otherwise the call fails with an invalid-argument error before any
message is sent; a valid name is delegated to the Correlator. -/
def getPathCall (s : ClientState) (name : String) :
    ClientState × Except String Nat :=
  if name ∈ knownFolderNames then
    (issueCall s "os" "getPath" [name], Except.ok s.nextId)
  else
    (s, Except.error "invalid-argument")

/-- Modelled from the spec and the source documentation of `os.getEnv`
(src/neutralino.d.ts lines 739-749): resolves with the value of the given
environment variable and returns an empty string if the environment
variable is not defined. -/
def getEnvResult (env : String → Option String) (key : String) : RpcResult :=
  RpcResult.success ((env key).getD "")

/-- Values of the global constant `NL_OS`, transcribed from
`declare const NL_OS` (src/neutralino.d.ts line 1348). -/
inductive NLOSVal where
  | linux
  | windows
  | darwin
deriving DecidableEq, Repr

/-- String literal each `NL_OS` value denotes in the declared union. -/
def NLOSVal.text : NLOSVal → String
  | NLOSVal.linux => "Linux"
  | NLOSVal.windows => "Windows"
  | NLOSVal.darwin => "Darwin"

/-- Values of the global constant `NL_MODE`, transcribed from
`declare const NL_MODE` (src/neutralino.d.ts line 1356). -/
inductive NLMODEVal where
  | window
  | browser
  | cloud
  | chrome
deriving DecidableEq, Repr

/-- String literal each `NL_MODE` value denotes in the declared union. -/
def NLMODEVal.text : NLMODEVal → String
  | NLMODEVal.window => "window"
  | NLMODEVal.browser => "browser"
  | NLMODEVal.cloud => "cloud"
  | NLMODEVal.chrome => "chrome"

/-- Values of the global constant `NL_RESMODE`, transcribed from
`declare const NL_RESMODE` (src/neutralino.d.ts line 1370). -/
inductive NLRESMODEVal where
  | bundle
  | directory
deriving DecidableEq, Repr

/-- String literal each `NL_RESMODE` value denotes in the declared union. -/
def NLRESMODEVal.text : NLRESMODEVal → String
  | NLRESMODEVal.bundle => "bundle"
  | NLRESMODEVal.directory => "directory"

/-- The globally injected constants, with field types transcribed from the
`declare const` block (src/neutralino.d.ts lines 1347-1376): the three
closed-union constants carry their enumerated types, the rest carry the
declared string/number/boolean/array types. -/
structure NLGlobals where
  nlOS : NLOSVal
  nlAPPID : String
  nlAPPVERSION : String
  nlPORT : Nat
  nlMODE : NLMODEVal
  nlVERSION : String
  nlCVERSION : String
  nlCWD : String
  nlPATH : String
  nlARGS : List String
  nlPID : Nat
  nlRESMODE : NLRESMODEVal
  nlEXTENABLED : Bool
  nlCOMMIT : String
  nlCCOMMIT : String

/-- Error codes documented in `@throws` clauses of src/neutralino.d.ts:
the filesystem namespace (lines 455, 465, 474, 484, 494, 507, 523, 541,
558, 565, 575, 584, 594), the os namespace (lines 700, 880) and the
updater namespace (lines 1044-1045, 1053-1055). -/
def documentedErrorCodes : List String :=
  ["NE_FS_DIRCRER", "NE_FS_RMDIRER", "NE_FS_FILWRER", "NE_FS_FILRDER",
   "NE_FS_FILRMER", "NE_FS_NOPATHE", "NE_FS_COPYFER", "NE_FS_MOVEFER",
   "NE_OS_UNLTOUP", "NE_OS_INVKNPT", "NE_UP_CUPDMER", "NE_UP_CUPDERR",
   "NE_UP_UPDNOUF", "NE_UP_UPDINER"]

/-- Splits a character list at underscore separators. -/
def splitUnderscore : List Char → List (List Char)
  | [] => [[]]
  | c :: rest =>
    match splitUnderscore rest with
    | [] => if c = '_' then [[], []] else [[c]]
    | g :: gs => if c = '_' then [] :: g :: gs else (c :: g) :: gs

/-- Decides whether a string is a fixed short alphanumeric token of the
shape `NE_<AREA>_<CODE>` with nonempty upper-case alphanumeric area and
code segments. -/
def isErrorCodeToken (s : String) : Bool :=
  match splitUnderscore s.toList with
  | [a, b, c] =>
    a == ['N', 'E'] && !b.isEmpty && !c.isEmpty &&
    b.all (fun ch => ch.isUpper || ch.isDigit) &&
    c.all (fun ch => ch.isUpper || ch.isDigit)
  | _ => false

/-- A declared method of the API surface: enclosing namespace, method name,
and the declared return-type annotation (`none` when the signature
carries no return annotation).  Quote characters of TypeScript string
literal types are dropped in the transcription. -/
structure APIMethod where
  ns : String
  name : String
  returnType : Option String
deriving DecidableEq, Repr

/-- Shorthand for a method with a declared return annotation. -/
def mkM (ns name ret : String) : APIMethod := ⟨ns, name, some ret⟩

/-- The declared API surface, transcribed method by method from
src/neutralino.d.ts (namespaces app, clipboard, computer, debug, events,
extensions, filesystem, the top-level init function, os, storage,
updater, window). -/
def apiSurface : List APIMethod :=
  [mkM "app" "exit" "Promise<void>",
   mkM "app" "killProcess" "Promise<void>",
   mkM "app" "restartProcess" "Promise<void>",
   mkM "app" "getConfig" "Promise<any>",
   mkM "app" "broadcast" "Promise<void>",
   mkM "clipboard" "writeText" "Promise<void>",
   mkM "clipboard" "readText" "Promise<string>",
   mkM "computer" "getMemoryInfo" "Promise<MemoryInfo>",
   mkM "computer" "getArch" "Promise<x64 | ia32 | arm | itanium | unknown>",
   mkM "computer" "getKernelInfo" "Promise<KernelInfo>",
   mkM "computer" "getOSInfo" "Promise<OSInfo>",
   mkM "computer" "getCPUInfo" "Promise<CPUInfo>",
   mkM "computer" "getDisplays" "Promise<Display[]>",
   mkM "computer" "getMousePosition" "Promise<MousePosition>",
   mkM "debug" "log" "Promise<void>",
   mkM "events" "on" "Promise<void>",
   mkM "events" "off" "Promise<void>",
   mkM "events" "dispatch" "Promise<void>",
   mkM "events" "broadcast" "Promise<void>",
   mkM "extensions" "dispatch" "Promise<void>",
   mkM "extensions" "broadcast" "Promise<void>",
   mkM "extensions" "getStats" "Promise<ExtensionStats>",
   mkM "filesystem" "createDirectory" "Promise<void>",
   mkM "filesystem" "removeDirectory" "Promise<void>",
   mkM "filesystem" "writeFile" "Promise<void>",
   mkM "filesystem" "appendFile" "Promise<void>",
   mkM "filesystem" "writeBinaryFile" "Promise<void>",
   mkM "filesystem" "appendBinaryFile" "Promise<void>",
   mkM "filesystem" "readFile" "Promise<string>",
   mkM "filesystem" "readBinaryFile" "Promise<ArrayBuffer>",
   mkM "filesystem" "removeFile" "Promise<void>",
   mkM "filesystem" "readDirectory" "Promise<ReadDirectoryResult>",
   mkM "filesystem" "copyFile" "Promise<void>",
   mkM "filesystem" "moveFile" "Promise<void>",
   mkM "filesystem" "getStats" "Promise<FileStats>",
   mkM "Neutralino" "init" "void",
   mkM "os" "execCommand" "Promise<ExecutedCommand>",
   mkM "os" "spawnProcess" "Promise<SpawnedProcess>",
   mkM "os" "updateSpawnedProcess" "Promise<void>",
   mkM "os" "getSpawnedProcesses" "Promise<SpawnedProcess[]>",
   mkM "os" "getEnv" "Promise<string>",
   mkM "os" "getEnvs" "Promise<\x7b [key: string]: string \x7d>",
   mkM "os" "showOpenDialog" "Promise<string[]>",
   mkM "os" "showSaveDialog" "Promise<string>",
   mkM "os" "showFolderDialog" "Promise<string>",
   ⟨"os", "showNotification", none⟩,
   mkM "os" "showMessageBox" "Promise<string>",
   mkM "os" "setTray" "Promise<void>",
   mkM "os" "getPath" "Promise<string>",
   mkM "os" "open" "Promise<void>",
   mkM "storage" "setData" "Promise<void>",
   mkM "storage" "getData" "Promise<string>",
   mkM "storage" "getKeys" "Promise<string[]>",
   mkM "updater" "checkForUpdates" "Promise<any>",
   mkM "updater" "install" "Promise<void>",
   mkM "window" "setTitle" "Promise<void>",
   mkM "window" "getTitle" "Promise<string>",
   mkM "window" "minimize" "Promise<void>",
   mkM "window" "maximize" "Promise<void>",
   mkM "window" "unmaximize" "Promise<void>",
   mkM "window" "isMaximized" "Promise<boolean>",
   mkM "window" "setFullScreen" "Promise<void>",
   mkM "window" "exitFullScreen" "Promise<void>",
   mkM "window" "isFullScreen" "Promise<boolean>",
   mkM "window" "show" "Promise<void>",
   mkM "window" "hide" "Promise<void>",
   mkM "window" "isVisible" "Promise<boolean>",
   mkM "window" "focus" "Promise<void>",
   mkM "window" "setAlwaysOnTop" "Promise<void>",
   mkM "window" "move" "Promise<void>",
   mkM "window" "setIcon" "Promise<void>",
   mkM "window" "setDraggableRegion" "Promise<void>",
   mkM "window" "unsetDraggableRegion" "Promise<void>",
   mkM "window" "setSize" "Promise<void>",
   mkM "window" "getSize" "Promise<WindowSize>",
   mkM "window" "getPosition" "Promise<WindowPosition>",
   mkM "window" "create" "Promise<CreatedWindow>"]

/-! Helper lemmas. -/

/-- One dispatch pass invokes exactly the snapshotted handlers, in order,
whatever registry mutations the handlers perform. -/
theorem runPass_log (effects : Handler → List RouterCmd) :
    ∀ (snapshot reg : List Handler),
      (runPass snapshot reg effects).fst = snapshot := by
  intro snapshot
  induction snapshot with
  | nil => intro reg; rfl
  | cons h rest ih => intro reg; simp [runPass, ih]

/-- The registry left behind by a dispatch pass is the snapshot's handlers'
mutations folded over the starting registry. -/
theorem runPass_registry (effects : Handler → List RouterCmd) :
    ∀ (snapshot reg : List Handler),
      (runPass snapshot reg effects).snd =
        snapshot.foldl (fun r h => applyCmds r (effects h)) reg := by
  intro snapshot
  induction snapshot with
  | nil => intro reg; rfl
  | cons h rest ih => intro reg; simp [runPass, ih, List.foldl_cons]

/-- Searching an appended association list skips a block containing no
entry for the sought identifier. -/
theorem find_append_of_not_mem (id : Nat) (l2 : List (Nat × RpcResult)) :
    ∀ (l1 : List (Nat × RpcResult)), id ∉ l1.map Prod.fst →
      (l1 ++ l2).find? (fun p => p.fst = id) =
        l2.find? (fun p => p.fst = id) := by
  intro l1
  induction l1 with
  | nil => intro _; rfl
  | cons x xs ih =>
    intro h
    simp only [List.map_cons, List.mem_cons, not_or] at h
    rw [List.cons_append,
      List.find?_cons_of_neg _ (by simp; exact fun hx => h.1 hx.symm),
      ih h.2]

/-- Resolution log and Pending Call table after a matched response. -/
theorem deliver_fields {s : ClientState} {id : Nat} (r : RpcResult)
    (h : id ∈ s.pending) :
    resolvedIds (deliverResponse s id r) = resolvedIds s ++ [id] ∧
    (deliverResponse s id r).pending = s.pending.erase id ∧
    (deliverResponse s id r).resolved = s.resolved ++ [(id, r)] := by
  simp [deliverResponse, h, resolvedIds]

/-- A response naming no Pending Call is dropped without any effect. -/
theorem deliver_unknown {s : ClientState} {id : Nat} (r : RpcResult)
    (h : id ∉ s.pending) : deliverResponse s id r = s := by
  simp [deliverResponse, h]

/-- Resolution log after a transport loss. -/
theorem resolvedIds_transportLoss (s : ClientState) :
    resolvedIds (transportLoss s) = resolvedIds s ++ s.pending := by
  simp [transportLoss, resolvedIds, List.map_map, Function.comp_def]

/-- The initial state satisfies the correlator invariant. -/
theorem goodState_initial : GoodState initialState := by
  refine ⟨?_, ?_, ?_, ?_, ?_⟩ <;> simp [initialState, resolvedIds]

/-- Issuing a call preserves the correlator invariant. -/
theorem goodState_issueCall {s : ClientState} (hg : GoodState s)
    (ns method : String) (args : List String) :
    GoodState (issueCall s ns method args) := by
  obtain ⟨h1, h2, h3, h4, h5⟩ := hg
  refine ⟨List.nodup_cons.mpr ⟨fun hmem => lt_irrefl _ (h2 _ hmem), h1⟩,
    ?_, h3, ?_, ?_⟩
  · intro i hi
    rcases List.mem_cons.mp hi with h | h
    · exact h ▸ Nat.lt_succ_self _
    · exact Nat.lt_succ_of_lt (h2 _ h)
  · intro i hi
    exact Nat.lt_succ_of_lt (h4 i hi)
  · intro i hi
    rcases List.mem_cons.mp hi with h | h
    · exact h ▸ fun hmem => lt_irrefl _ (h4 _ hmem)
    · exact h5 i h

/-- Delivering a response preserves the correlator invariant. -/
theorem goodState_deliverResponse {s : ClientState} (hg : GoodState s)
    (id : Nat) (r : RpcResult) : GoodState (deliverResponse s id r) := by
  obtain ⟨h1, h2, h3, h4, h5⟩ := hg
  by_cases hid : id ∈ s.pending
  · obtain ⟨hr, hp, _⟩ := deliver_fields r hid
    have hnid : (deliverResponse s id r).nextId = s.nextId := by
      simp [deliverResponse, hid]
    refine ⟨?_, ?_, ?_, ?_, ?_⟩
    · rw [hp]; exact h1.erase id
    · intro i hi
      rw [hp] at hi
      rw [hnid]
      exact h2 i (List.mem_of_mem_erase hi)
    · rw [hr]
      refine h3.append (List.nodup_singleton id) ?_
      intro a ha hb
      rw [List.mem_singleton] at hb
      exact h5 a (hb ▸ hid) ha
    · intro i hi
      rw [hr] at hi
      rw [hnid]
      rcases List.mem_append.mp hi with h | h
      · exact h4 i h
      · rw [List.mem_singleton] at h
        exact h ▸ h2 id hid
    · intro i hi
      rw [hp] at hi
      rw [hr]
      obtain ⟨hine, himem⟩ := (h1.mem_erase_iff).mp hi
      intro hcon
      rcases List.mem_append.mp hcon with h | h
      · exact h5 i himem h
      · exact hine (List.mem_singleton.mp h)
  · rw [deliver_unknown r hid]
    exact ⟨h1, h2, h3, h4, h5⟩

/-- Transport loss preserves the correlator invariant. -/
theorem goodState_transportLoss {s : ClientState} (hg : GoodState s) :
    GoodState (transportLoss s) := by
  obtain ⟨h1, h2, h3, h4, h5⟩ := hg
  refine ⟨?_, ?_, ?_, ?_, ?_⟩
  · simp [transportLoss]
  · simp [transportLoss]
  · rw [resolvedIds_transportLoss]
    exact h3.append h1 (fun a ha hb => h5 a hb ha)
  · intro i hi
    rw [resolvedIds_transportLoss] at hi
    rcases List.mem_append.mp hi with h | h
    · exact h4 i h
    · exact h2 i h
  · simp [transportLoss]

/-- Every step of the client preserves the correlator invariant. -/
theorem goodState_step {s t : ClientState} (hg : GoodState s)
    (h : Step s t) : GoodState t := by
  cases h with
  | issue ns method args hopen => exact goodState_issueCall hg ns method args
  | respond id r => exact goodState_deliverResponse hg id r
  | loss => exact goodState_transportLoss hg
  | reconnect => exact hg
  | handshakeOk => exact hg

/-- Every reachable state satisfies the correlator invariant. -/
theorem goodState_reachable {s : ClientState} (h : Reachable s) :
    GoodState s := by
  induction h with
  | base => exact goodState_initial
  | step hr hst ih => exact goodState_step ih hst

/-- The correlator invariant is preserved along any execution suffix. -/
theorem goodState_reachableFrom {s t : ClientState} (hg : GoodState s)
    (h : ReachableFrom s t) : GoodState t := by
  induction h with
  | refl => exact hg
  | step hr hst ih => exact goodState_step ih hst

/-- Membership follows from a positive occurrence count. -/
theorem mem_of_count_eq_one {l : List Nat} {id : Nat}
    (h : l.count id = 1) : id ∈ l := by
  by_contra hno
  rw [List.count_eq_zero_of_not_mem hno] at h
  exact one_ne_zero h.symm

/-- Every step of the client preserves the lifecycle of each call: an
outstanding call stays outstanding or becomes resolved exactly once, and
a resolved call is never resolved again. -/
theorem tracksCall_step {id : Nat} {s t : ClientState} (hg : GoodState s)
    (h : TracksCall id s) (hst : Step s t) : TracksCall id t := by
  obtain ⟨hnd, hbound, hrnd, hrbound, hdisj⟩ := hg
  cases hst with
  | issue ns method args hopen =>
    rcases h with ⟨hp, hr⟩ | hc
    · exact Or.inl ⟨List.mem_cons_of_mem _ hp, hr⟩
    · exact Or.inr hc
  | respond rid r =>
    by_cases hrid : rid ∈ s.pending
    · obtain ⟨hres, hpen, _⟩ := deliver_fields r hrid
      rcases h with ⟨hp, hr⟩ | hc
      · by_cases heq : rid = id
        · subst heq
          refine Or.inr ?_
          rw [hres, List.count_append, List.count_eq_zero_of_not_mem hr]
          simp
        · refine Or.inl ⟨?_, ?_⟩
          · rw [hpen]
            exact (List.mem_erase_of_ne (fun he => heq he.symm)).mpr hp
          · rw [hres]
            intro hcon
            rcases List.mem_append.mp hcon with hmem | hmem
            · exact hr hmem
            · exact heq (List.mem_singleton.mp hmem).symm
      · have hidmem : id ∈ resolvedIds s := mem_of_count_eq_one hc
        have hne : rid ≠ id := fun he => hdisj rid hrid (he ▸ hidmem)
        refine Or.inr ?_
        rw [hres, List.count_append, hc, List.count_eq_zero_of_not_mem
          (fun hmem => hne (List.mem_singleton.mp hmem).symm)]
    · rw [deliver_unknown r hrid]
      exact h
  | loss =>
    rcases h with ⟨hp, hr⟩ | hc
    · refine Or.inr ?_
      rw [resolvedIds_transportLoss, List.count_append,
        List.count_eq_zero_of_not_mem hr, List.count_eq_one_of_mem hnd hp]
    · have hnp : id ∉ s.pending :=
        fun hmem => hdisj id hmem (mem_of_count_eq_one hc)
      refine Or.inr ?_
      rw [resolvedIds_transportLoss, List.count_append, hc,
        List.count_eq_zero_of_not_mem hnp]
  | reconnect => exact h
  | handshakeOk => exact h

/-- The lifecycle of a call is preserved along any execution suffix. -/
theorem tracksCall_reachableFrom {id : Nat} {s t : ClientState}
    (hg : GoodState s) (h0 : TracksCall id s) (h : ReachableFrom s t) :
    TracksCall id t := by
  induction h with
  | refl => exact h0
  | step hr hst ih =>
    exact tracksCall_step (goodState_reachableFrom hg hr) ih hst

/-- Two responses delivered to two distinct outstanding calls each resolve
exactly the call they name. -/
theorem resultOf_two_delivers (s : ClientState) (x y : Nat)
    (rx ry : RpcResult) (hxy : x ≠ y) (hx : x ∈ s.pending)
    (hy : y ∈ s.pending) (hrx : x ∉ resolvedIds s) (hry : y ∉ resolvedIds s) :
    resultOf (deliverResponse (deliverResponse s x rx) y ry) x = some rx ∧
    resultOf (deliverResponse (deliverResponse s x rx) y ry) y = some ry := by
  obtain ⟨_, hpen1, hres1⟩ := deliver_fields rx hx
  have hy1 : y ∈ (deliverResponse s x rx).pending := by
    rw [hpen1]
    exact (List.mem_erase_of_ne (fun he => hxy he.symm)).mpr hy
  obtain ⟨_, _, hres2⟩ := deliver_fields ry hy1
  rw [hres1] at hres2
  constructor
  · simp only [resultOf]
    rw [hres2, List.append_assoc, find_append_of_not_mem x _ s.resolved hrx]
    simp
  · have hy2 : y ∉ (s.resolved ++ [(x, rx)]).map Prod.fst := by
      simp only [List.map_append, List.map_cons, List.map_nil,
        List.mem_append, List.mem_singleton, not_or]
      exact ⟨hry, fun he => hxy he.symm⟩
    simp only [resultOf]
    rw [hres2, find_append_of_not_mem y _ _ hy2]
    simp

/-! Claim theorems. -/

/-- C1: every call to the os.getPath operation whose argument is not one of
the ten accepted folder names fails with an invalid-argument error before
any message is sent: the outcome is the invalid-argument error, the sent
message log is unchanged, and indeed the whole client state is unchanged. -/
theorem C1_getPath_invalid_folder_guard (s : ClientState) (name : String)
    (h : name ∉ knownFolderNames) :
    (getPathCall s name).snd = Except.error "invalid-argument" ∧
    (getPathCall s name).fst.sentLog = s.sentLog ∧
    (getPathCall s name).fst = s := by
  simp [getPathCall, h]

/-- Witness for C1 at the unrecognized folder name desktop. -/
theorem C1_getPath_invalid_folder_guard_witness :
    ("desktop" ∉ knownFolderNames) ∧
    ((getPathCall initialState "desktop").snd =
        Except.error "invalid-argument" ∧
      (getPathCall initialState "desktop").fst.sentLog =
        initialState.sentLog ∧
      (getPathCall initialState "desktop").fst = initialState) :=
  ⟨by decide,
    C1_getPath_invalid_folder_guard initialState "desktop" (by decide)⟩

/-- C2: the globally injected constants drawn from fixed closed sets take
values only from those sets — NL_OS is one of Linux, Windows, Darwin;
NL_MODE is one of window, browser, cloud, chrome; NL_RESMODE is one of
bundle, directory — for every assignment of the globals. -/
theorem C2_injected_constants_closed_sets (g : NLGlobals) :
    g.nlOS.text ∈ ["Linux", "Windows", "Darwin"] ∧
    g.nlMODE.text ∈ ["window", "browser", "cloud", "chrome"] ∧
    g.nlRESMODE.text ∈ ["bundle", "directory"] := by
  refine ⟨?_, ?_, ?_⟩
  · cases g.nlOS <;> simp [NLOSVal.text]
  · cases g.nlMODE <;> simp [NLMODEVal.text]
  · cases g.nlRESMODE <;> simp [NLRESMODEVal.text]

/-- C3: in every reachable state of the Request Correlator the Pending Call
table holds at most one Pending Call per identifier (the table is
duplicate-free), and an identifier is never reused while a call bearing
it is outstanding — the freshly assigned identifier is not pending, and
issuing a new call keeps the table duplicate-free. -/
theorem C3_pending_identifiers_unique (s : ClientState) (hs : Reachable s) :
    s.pending.Nodup ∧ s.nextId ∉ s.pending ∧
    ∀ (ns method : String) (args : List String),
      (issueCall s ns method args).pending.Nodup := by
  obtain ⟨h1, h2, _, _, _⟩ := goodState_reachable hs
  exact ⟨h1, fun hmem => lt_irrefl _ (h2 _ hmem), fun ns method args =>
    List.nodup_cons.mpr ⟨fun hmem => lt_irrefl _ (h2 _ hmem), h1⟩⟩

/-- Witness for C3 in the reachable state where one call is outstanding. -/
theorem C3_pending_identifiers_unique_witness :
    (issueCall (handshake initialState) "os" "getEnv" ["USER"]).pending.Nodup ∧
    (issueCall (handshake initialState) "os" "getEnv" ["USER"]).nextId ∉
      (issueCall (handshake initialState) "os" "getEnv" ["USER"]).pending ∧
    (issueCall (issueCall (handshake initialState) "os" "getEnv" ["USER"])
      "os" "getPath" ["downloads"]).pending.Nodup :=
  let h := C3_pending_identifiers_unique _
    (Reachable.step (Reachable.step Reachable.base (Step.handshakeOk _))
      (Step.issue _ "os" "getEnv" ["USER"] (by decide)))
  ⟨h.1, h.2.1, h.2.2 "os" "getPath" ["downloads"]⟩

/-- C4: every call issued while the connection is Open resolves exactly
once — in any later state in which no call is left pending (every call
having been answered or swept by a transport loss), the call's identifier
occurs exactly once in the resolution log, with some success-or-error
result attached. -/
theorem C4_call_resolves_exactly_once (s t : ClientState) (id : Nat)
    (hs : Reachable s) (hid : id ∈ s.pending)
    (hpath : ReachableFrom s t) (hdone : t.pending = []) :
    (resolvedIds t).count id = 1 ∧ (resultOf t id).isSome = true := by
  have hg : GoodState s := goodState_reachable hs
  have h0 : TracksCall id s := Or.inl ⟨hid, hg.2.2.2.2 id hid⟩
  have ht := tracksCall_reachableFrom hg h0 hpath
  have hcount : (resolvedIds t).count id = 1 := by
    rcases ht with ⟨hp, _⟩ | hc
    · rw [hdone] at hp
      cases hp
    · exact hc
  refine ⟨hcount, ?_⟩
  rcases List.mem_map.mp (mem_of_count_eq_one hcount) with ⟨p, hpmem, hpfst⟩
  have hfind : (t.resolved.find? (fun q => q.fst = id)).isSome = true :=
    List.find?_isSome.mpr ⟨p, hpmem, by simp [hpfst]⟩
  rcases Option.isSome_iff_exists.mp hfind with ⟨q, hq⟩
  simp [resultOf, hq]

/-- Witness for C4 on a run that issues one call and answers it. -/
theorem C4_call_resolves_exactly_once_witness :
    (0 ∈ (issueCall (handshake initialState) "os" "getEnv" ["USER"]).pending) ∧
    ((deliverResponse
        (issueCall (handshake initialState) "os" "getEnv" ["USER"])
        0 (RpcResult.success "root")).pending = []) ∧
    ((resolvedIds (deliverResponse
        (issueCall (handshake initialState) "os" "getEnv" ["USER"])
        0 (RpcResult.success "root"))).count 0 = 1 ∧
      (resultOf (deliverResponse
        (issueCall (handshake initialState) "os" "getEnv" ["USER"])
        0 (RpcResult.success "root")) 0).isSome = true) :=
  ⟨by decide, by decide,
    C4_call_resolves_exactly_once _ _ 0
      (Reachable.step (Reachable.step Reachable.base (Step.handshakeOk _))
        (Step.issue _ "os" "getEnv" ["USER"] (by decide)))
      (by decide)
      (ReachableFrom.step (ReachableFrom.refl _)
        (Step.respond _ 0 (RpcResult.success "root")))
      (by decide)⟩

/-- C5: for two concurrently outstanding calls with identifiers a and b,
delivering Response(b) before Response(a) resolves both calls with the
same results as the opposite delivery order: each response fulfills
exactly the Pending Call it names, and the remaining Pending Call table
is the same either way. -/
theorem C5_response_order_immaterial (s : ClientState) (a b : Nat)
    (ra rb : RpcResult) (hab : a ≠ b) (ha : a ∈ s.pending)
    (hb : b ∈ s.pending) (hra : a ∉ resolvedIds s)
    (hrb : b ∉ resolvedIds s) :
    resultOf (deliverResponse (deliverResponse s b rb) a ra) a = some ra ∧
    resultOf (deliverResponse (deliverResponse s b rb) a ra) b = some rb ∧
    resultOf (deliverResponse (deliverResponse s a ra) b rb) a = some ra ∧
    resultOf (deliverResponse (deliverResponse s a ra) b rb) b = some rb ∧
    (deliverResponse (deliverResponse s b rb) a ra).pending =
      (deliverResponse (deliverResponse s a ra) b rb).pending := by
  obtain ⟨hba1, hba2⟩ :=
    resultOf_two_delivers s b a rb ra (fun he => hab he.symm) hb ha hrb hra
  obtain ⟨hab1, hab2⟩ := resultOf_two_delivers s a b ra rb hab ha hb hra hrb
  refine ⟨hba2, hba1, hab1, hab2, ?_⟩
  obtain ⟨_, hpb, _⟩ := deliver_fields rb hb
  have ha1 : a ∈ (deliverResponse s b rb).pending := by
    rw [hpb]
    exact (List.mem_erase_of_ne hab).mpr ha
  obtain ⟨_, hpba, _⟩ := deliver_fields ra ha1
  obtain ⟨_, hpa, _⟩ := deliver_fields ra ha
  have hb1 : b ∈ (deliverResponse s a ra).pending := by
    rw [hpa]
    exact (List.mem_erase_of_ne (fun he => hab he.symm)).mpr hb
  obtain ⟨_, hpab, _⟩ := deliver_fields rb hb1
  rw [hpba, hpb, hpab, hpa, List.erase_comm]

/-- Witness for C5 with calls 0 and 1 outstanding and responses delivered
in reverse issue order. -/
theorem C5_response_order_immaterial_witness :
    ((0 : Nat) ≠ 1) ∧
    (0 ∈ (⟨ConnState.opened, 2, [0, 1], [], []⟩ : ClientState).pending) ∧
    (1 ∈ (⟨ConnState.opened, 2, [0, 1], [], []⟩ : ClientState).pending) ∧
    (0 ∉ resolvedIds ⟨ConnState.opened, 2, [0, 1], [], []⟩) ∧
    (1 ∉ resolvedIds ⟨ConnState.opened, 2, [0, 1], [], []⟩) ∧
    (resultOf (deliverResponse (deliverResponse
        ⟨ConnState.opened, 2, [0, 1], [], []⟩ 1 (RpcResult.success "rb"))
        0 (RpcResult.success "ra")) 0 = some (RpcResult.success "ra") ∧
      resultOf (deliverResponse (deliverResponse
        ⟨ConnState.opened, 2, [0, 1], [], []⟩ 1 (RpcResult.success "rb"))
        0 (RpcResult.success "ra")) 1 = some (RpcResult.success "rb") ∧
      resultOf (deliverResponse (deliverResponse
        ⟨ConnState.opened, 2, [0, 1], [], []⟩ 0 (RpcResult.success "ra"))
        1 (RpcResult.success "rb")) 0 = some (RpcResult.success "ra") ∧
      resultOf (deliverResponse (deliverResponse
        ⟨ConnState.opened, 2, [0, 1], [], []⟩ 0 (RpcResult.success "ra"))
        1 (RpcResult.success "rb")) 1 = some (RpcResult.success "rb") ∧
      (deliverResponse (deliverResponse
        ⟨ConnState.opened, 2, [0, 1], [], []⟩ 1 (RpcResult.success "rb"))
        0 (RpcResult.success "ra")).pending =
      (deliverResponse (deliverResponse
        ⟨ConnState.opened, 2, [0, 1], [], []⟩ 0 (RpcResult.success "ra"))
        1 (RpcResult.success "rb")).pending) :=
  ⟨by decide, by decide, by decide, by decide, by decide,
    C5_response_order_immaterial ⟨ConnState.opened, 2, [0, 1], [], []⟩
      0 1 (RpcResult.success "ra") (RpcResult.success "rb")
      (by decide) (by decide) (by decide) (by decide) (by decide)⟩

/-- C6: a dispatch of an event invokes exactly the handlers registered at
dispatch time, once each, in registration order, whatever registrations
or removals the invoked handlers perform mid-pass; those mutations are
folded into the registry only after the pass, so a subsequent dispatch
invokes exactly the mutated registry. -/
theorem C6_dispatch_snapshot_semantics (reg : List Handler)
    (effects : Handler → List RouterCmd) :
    (dispatchEvent reg effects).fst = reg ∧
    (dispatchEvent reg effects).snd =
      reg.foldl (fun r h => applyCmds r (effects h)) reg ∧
    (dispatchEvent (dispatchEvent reg effects).snd effects).fst =
      (dispatchEvent reg effects).snd :=
  ⟨runPass_log effects reg reg, runPass_registry effects reg reg,
    runPass_log effects _ _⟩

/-- C7: every error code documented for a failure response matches the
fixed pattern NE_AREA_CODE (upper-case alphanumeric area and code
segments), and the facade surfaces a failure code to the caller
unchanged, alongside its human-readable message, in the resolution
entry of the Pending Call the response names. -/
theorem C7_error_code_tokens_surfaced_unchanged :
    (∀ c ∈ documentedErrorCodes, isErrorCodeToken c = true) ∧
    ∀ (s : ClientState) (id : Nat) (code msg : String), id ∈ s.pending →
      (deliverResponse s id (RpcResult.failure code msg)).resolved =
        s.resolved ++ [(id, RpcResult.failure code msg)] := by
  refine ⟨by decide, ?_⟩
  intro s id code msg h
  exact (deliver_fields _ h).2.2

/-- Witness for C7 at the documented code NE_OS_INVKNPT. -/
theorem C7_error_code_tokens_surfaced_unchanged_witness :
    ("NE_OS_INVKNPT" ∈ documentedErrorCodes) ∧
    isErrorCodeToken "NE_OS_INVKNPT" = true ∧
    (0 ∈ (issueCall (handshake initialState) "os" "getPath"
      ["downloads"]).pending) ∧
    (deliverResponse (issueCall (handshake initialState) "os" "getPath"
        ["downloads"]) 0
        (RpcResult.failure "NE_OS_INVKNPT" "invalid folder name")).resolved =
      (issueCall (handshake initialState) "os" "getPath"
        ["downloads"]).resolved ++
        [(0, RpcResult.failure "NE_OS_INVKNPT" "invalid folder name")] :=
  ⟨by decide,
    C7_error_code_tokens_surfaced_unchanged.1 "NE_OS_INVKNPT" (by decide),
    by decide,
    C7_error_code_tokens_surfaced_unchanged.2 _ 0 "NE_OS_INVKNPT"
      "invalid folder name" (by decide)⟩

/-- C8: the initialization entry point is idempotent — running it twice
equals running it once; when the connection is already Open or Connecting
it is a no-op; and in every case it leaves all observable state other
than the connection state (identifier source, Pending Call table,
resolution log, sent-message log) unchanged. -/
theorem C8_init_idempotent (s : ClientState) :
    connectOp (connectOp s) = connectOp s ∧
    ((s.conn = ConnState.opened ∨ s.conn = ConnState.connecting) →
      connectOp s = s) ∧
    (connectOp s).nextId = s.nextId ∧
    (connectOp s).pending = s.pending ∧
    (connectOp s).resolved = s.resolved ∧
    (connectOp s).sentLog = s.sentLog := by
  obtain ⟨c, n, p, r, l⟩ := s
  cases c with
  | connecting => exact ⟨rfl, fun _ => rfl, rfl, rfl, rfl, rfl⟩
  | opened => exact ⟨rfl, fun _ => rfl, rfl, rfl, rfl, rfl⟩
  | offline =>
    refine ⟨rfl, ?_, rfl, rfl, rfl, rfl⟩
    rintro (h | h) <;> exact ConnState.noConfusion h

/-- Witness for C8 at an Open connection. -/
theorem C8_init_idempotent_witness :
    connectOp (connectOp ⟨ConnState.opened, 0, [], [], []⟩) =
      connectOp ⟨ConnState.opened, 0, [], [], []⟩ ∧
    connectOp ⟨ConnState.opened, 0, [], [], []⟩ =
      (⟨ConnState.opened, 0, [], [], []⟩ : ClientState) :=
  ⟨(C8_init_idempotent ⟨ConnState.opened, 0, [], [], []⟩).1,
    (C8_init_idempotent ⟨ConnState.opened, 0, [], [], []⟩).2.1
      (Or.inl rfl)⟩

/-- C9: os.getEnv always resolves with a string — for every environment
and key there is a success payload — and when the named environment
variable is undefined it resolves with the empty string rather than
rejecting. -/
theorem C9_getEnv_undefined_resolves_empty
    (env : String → Option String) (key : String) :
    (∃ v, getEnvResult env key = RpcResult.success v) ∧
    (env key = none → getEnvResult env key = RpcResult.success "") := by
  refine ⟨⟨(env key).getD "", rfl⟩, ?_⟩
  intro h
  simp [getEnvResult, h]

/-- Witness for C9 in an environment where the variable is undefined. -/
theorem C9_getEnv_undefined_resolves_empty_witness :
    ((fun _ => (none : Option String)) "HOME" = none) ∧
    getEnvResult (fun _ => none) "HOME" = RpcResult.success "" :=
  ⟨rfl, (C9_getEnv_undefined_resolves_empty (fun _ => none) "HOME").2 rfl⟩

/-- C10: os.showNotification is the only declared operation of the entire
API surface whose signature carries no return-type annotation, and every
other method except the top-level init (declared void) is declared to
return a Promise. -/
theorem C10_showNotification_only_untyped_return :
    apiSurface.filter (fun m => m.returnType.isNone) =
      [⟨"os", "showNotification", none⟩] ∧
    (apiSurface.filter (fun m =>
        !((m.returnType.getD "").toList.take 8 == "Promise<".toList))).map
        (fun m => (m.ns, m.name)) =
      [("Neutralino", "init"), ("os", "showNotification")] := by
  constructor <;> rfl

end NeutralinoSpec
